import Mathlib

/-!
Shallow embedding of `PM_01_Frequency-Domain_Analysis_of_Large_Datasets.ipynb`:
a three-stage workflow (rechunk, spectral transform, band aggregation /
masking / presentation) for frequency-domain analysis of a chunked
climate dataset, together with proofs of its specified properties.
-/

namespace FreqDomain

/-! ### Step 3: frequency-band table and band aggregation

The notebook defines
`bands = {"> 1 year": slice(1/3650, 1/400), ...}` and aggregates with
`T_power_spectrum_NAtl.sel(freq_time=band_slice).mean('freq_time')`.
An xarray label-based `.sel` with a slice is inclusive of BOTH endpoints
(unlike Python positional slicing); a `None` stop means unbounded above.
-/

/-- A frequency band: a `slice(lo, hi)` over the `freq_time` coordinate,
with `hi = none` for an unbounded stop (`slice(1/10, None)`). -/
structure Band where
  lo : ℚ
  hi : Option ℚ
deriving DecidableEq, Repr

/-- Label-based slice membership as xarray `.sel` implements it:
inclusive of both the start and the stop label. -/
def inBand (b : Band) (f : ℚ) : Bool :=
  decide (b.lo ≤ f) &&
    (match b.hi with
     | none => true
     | some h => decide (f ≤ h))

/-- The notebook's `bands` dictionary (units: 1/days). -/
def bands : List (String × Band) :=
  [("> 1 year", ⟨1/3650, some (1/400)⟩),
   ("~ 1 year", ⟨1/370, some (1/360)⟩),
   ("100 days - 1 year", ⟨1/360, some (1/100)⟩),
   ("10 days - 100 days", ⟨1/100, some (1/10)⟩),
   ("< 10 days", ⟨1/10, none⟩)]

/-- A one-dimensional spectral section along `freq_time`: a list of
(frequency, power) bins. -/
def Spectrum : Type := List (ℚ × ℚ)

/-- `T.sel(freq_time=band_slice)`: the bins whose frequency label lies in
the band's slice. -/
def selBand (b : Band) (s : List (ℚ × ℚ)) : List (ℚ × ℚ) :=
  s.filter (fun p => inBand b p.1)

/-- `T.sel(freq_time=band_slice).mean('freq_time')`: the unweighted mean of
the selected bins' values; an empty selection yields no value (xarray
produces NaN there). -/
def bandMean (b : Band) (s : List (ℚ × ℚ)) : Option ℚ :=
  let sel := selBand b s
  if sel.isEmpty then none
  else some ((sel.map Prod.snd).sum / sel.length)

/-- Half-open-interval membership, written from the spec's words
("for each named half-open frequency interval, select all frequency bins
whose value falls in the interval") for comparison with `inBand`. -/
def inBandHalfOpen (b : Band) (f : ℚ) : Bool :=
  decide (b.lo ≤ f) &&
    (match b.hi with
     | none => true
     | some h => decide (f < h))

/-- Band aggregation as the spec words it: half-open selection, then the
unweighted mean. -/
def bandMeanHalfOpen (b : Band) (s : List (ℚ × ℚ)) : Option ℚ :=
  let sel := s.filter (fun p => inBandHalfOpen b p.1)
  if sel.isEmpty then none
  else some ((sel.map Prod.snd).sum / sel.length)

/-- Closed-interval membership of a frequency in a band, as a proposition:
at or above the start, and at or below the stop when a stop is given. -/
def memClosedBand (b : Band) (f : ℚ) : Prop :=
  b.lo ≤ f ∧ ∀ h ∈ b.hi, f ≤ h

instance (b : Band) (f : ℚ) : Decidable (memClosedBand b f) := by
  unfold memClosedBand; infer_instance

/-- Evaluating the aggregation, modelled as an operation that also returns
the state of the spectral array it leaves behind: `.sel` and `.mean`
allocate new arrays and leave their input untouched. -/
def bandMeanRun (b : Band) (s : List (ℚ × ℚ)) : Option ℚ × List (ℚ × ℚ) :=
  (bandMean b s, s)

/-! ### Step 2: power spectrum consumer

`T_calc_power_spectrum = take_power_spectrum(Txr_rechunked,'time')` is a
complex-valued array over (freq_time, nlat, nlon); the notebook then takes
`T_calc_power_spectrum.real.coarsen(nlat=5, nlon=5).mean()`.
Complex samples are embedded as rational (re, im) pairs. -/

/-- A complex sample of the transform output. -/
structure Cx where
  re : ℚ
  im : ℚ
deriving DecidableEq, Repr

/-- Squared magnitude `z* z` of a complex sample: the quantity the
notebook's displayed definition of the power spectrum calls for. -/
def cxNormSq (z : Cx) : ℚ := z.re * z.re + z.im * z.im

/-- `.real`: the per-point power field the workflow actually uses,
the real component of the complex transform output. -/
def realPart (F : ℕ → ℕ → ℕ → Cx) : ℕ → ℕ → ℕ → ℚ :=
  fun k i j => (F k i j).re

/-- `.coarsen(nlat=5, nlon=5).mean()`: block mean over 5×5 spatial cells,
frequency axis untouched. -/
def coarsenMean5 (T : ℕ → ℕ → ℕ → ℚ) : ℕ → ℕ → ℕ → ℚ :=
  fun k i j => (∑ a : Fin 5, ∑ b : Fin 5, T k (5 * i + a) (5 * j + b)) / 25

/-- `T_power_spectrum = T_calc_power_spectrum.real.coarsen(...).mean()`,
as a function of the complex transform output `F`. -/
def T_power_spectrum (F : ℕ → ℕ → ℕ → Cx) : ℕ → ℕ → ℕ → ℚ :=
  coarsenMean5 (realPart F)

/-! ### Step 2: `take_power_spectrum` and the transform precondition

```python
def take_power_spectrum(var,real_arg):
    var = var.chunk({'time':None}) # there can be no chunking in the time dimension
    var_filled = var.fillna(0) # fill NaNs with zeros
    var_hat = xrft.power_spectrum(var_filled,dim='time',real=real_arg,detrend='linear',window=True)
    return var_hat
```
The time axis of an array carries a chunk layout and optional (NaN)
samples; `none` models a missing value. -/

/-- An xarray DataArray reduced to what the transform precondition sees
along the `time` dimension: the chunk sizes of that axis and the sample
sequence, with `none` for NaN. -/
structure XArr where
  timeChunks : List ℕ
  data : List (Option ℚ)
deriving DecidableEq, Repr

/-- `var.chunk({'time': None})`: merge the time axis into one block. -/
def chunkTimeNone (a : XArr) : XArr :=
  { a with timeChunks := [a.data.length] }

/-- `var.fillna(v)`: replace every missing sample by `v`. -/
def fillna (v : ℚ) (a : XArr) : XArr :=
  { a with data := a.data.map (fun o => some (o.getD v)) }

/-- The transform axis is a single, non-chunked block. -/
def singleChunked (a : XArr) : Bool := a.timeChunks.length == 1

/-- No undefined (NaN) sample anywhere on the transform axis. -/
def noMissing (a : XArr) : Bool := a.data.all Option.isSome

/-- Modelled from the spec: `xrft.power_spectrum(..., dim='time', real=...,
detrend='linear', window=True)` is external-library code not in this
repository; the spec gives only its contract, whose error branch fires on a
still-chunked transform axis or on undefined values, and otherwise yields a
spectral array from the samples. The spectral values themselves are opaque
here (an injective placeholder of the input samples). -/
def power_spectrum (a : XArr) : Except String (List ℚ) :=
  if singleChunked a && noMissing a then
    Except.ok (a.data.map (fun o => o.getD 0))
  else
    Except.error "xrft precondition violated: chunked axis or undefined values"

/-- The notebook's `take_power_spectrum`: rechunk the time axis to one
block, fill NaNs with zero, then invoke the transform. -/
def take_power_spectrum (var : XArr) : Except String (List ℚ) :=
  power_spectrum (fillna 0 (chunkTimeNone var))

/-! ### Re-masking

```python
mask = (ds_orig.SST[0].notnull().astype(int).coarsen(nlon=5, nlat=5).mean() > 0.2).isel(**region).load()
T_power_spectrum_NAtl = T_power_spectrum_NAtl.where(mask)
```
`sst : ℕ → ℕ → ℕ → Option ℚ` is the source SST field indexed by
(time, nlat, nlon), with `none` for a missing sample. -/

/-- `notnull().astype(int)` on one snapshot: 1 where a sample is present,
0 where it is missing. -/
def notnullInd (snap : ℕ → ℕ → Option ℚ) (i j : ℕ) : ℚ :=
  if (snap i j).isSome then 1 else 0

/-- `SST[0].notnull().astype(int).coarsen(nlon=5, nlat=5).mean()`:
the fraction of non-missing source samples in each 5×5 spatial cell of
the FIRST time snapshot. -/
def coarseFrac (sst : ℕ → ℕ → ℕ → Option ℚ) (i j : ℕ) : ℚ :=
  (∑ a : Fin 5, ∑ b : Fin 5, notnullInd (sst 0) (5 * i + a) (5 * j + b)) / 25

/-- `mask = (... > 0.2)`: a cell is valid when its non-missing fraction
strictly exceeds 1/5. -/
def mask (sst : ℕ → ℕ → ℕ → Option ℚ) (i j : ℕ) : Bool :=
  decide (coarseFrac sst i j > 1/5)

/-- `T.where(mask)`: keep the value on valid cells, put the no-data marker
(NaN, modelled as `none`) on invalid ones. -/
def whereMask (m : ℕ → ℕ → Bool) (T : ℕ → ℕ → ℚ) (i j : ℕ) : Option ℚ :=
  if m i j then some (T i j) else none

/-! ### Step 1: the rechunk operation (library contract)

`r = rechunk(array, target_chunks, max_mem, store_target, temp_store=store_tmp,
executor='dask')` followed by `r.execute(retries=10)` is a call into the
external `rechunker` library; only its contract is specified. The array is
modelled flattened, a chunk layout as the list of chunk sizes. -/

/-- `splitSizes sizes xs`: cut `xs` into consecutive chunks of the given
sizes (the way a chunk layout partitions a flattened array). -/
def splitSizes : List ℕ → List ℚ → List (List ℚ)
  | [], _ => []
  | n :: ns, xs => xs.take n :: splitSizes ns (xs.drop n)

/-- Reading a chunked store back as one contiguous array. -/
def joinChunks (cs : List (List ℚ)) : List ℚ := cs.flatten

/-- Byte size of one target chunk from its per-axis extents. -/
def chunkBytes (itemsize : ℕ) (targetChunks : List ℕ) : ℕ :=
  itemsize * targetChunks.prod

/-- Modelled from the spec: the `rechunker` library's `rechunk()` plan
construction is external code not in this repository. Per the spec's
contract, the memory budget must exceed the byte size of one target chunk
(working overhead taken as zero here, the spec gives no figure) or the
call fails with a configuration error; otherwise it returns a deferred
plan holding the target chunking of the data, and no task runs yet. -/
def rechunkPlan (itemsize : ℕ) (data : List ℚ) (targetChunks : List ℕ)
    (maxMem : ℕ) : Except String (List (List ℚ)) :=
  if maxMem < chunkBytes itemsize targetChunks then
    Except.error "rechunker configuration error: max_mem smaller than one target chunk"
  else
    Except.ok (splitSizes (List.replicate (data.length / targetChunks.prod + 1)
      targetChunks.prod) data)

/-- Modelled from the spec: `r.execute(...)` dispatches the plan's tasks
and writes the target store; when plan construction already failed, nothing
is dispatched and both the staging and the target stores keep their prior
contents. Returns (outcome, staging store, target store). -/
def executeRechunk (itemsize : ℕ) (data : List ℚ) (targetChunks : List ℕ)
    (maxMem : ℕ) (tmpStore targetStore : List (List ℚ)) :
    Except String Unit × List (List ℚ) × List (List ℚ) :=
  match rechunkPlan itemsize data targetChunks maxMem with
  | Except.error e => (Except.error e, tmpStore, targetStore)
  | Except.ok chunks => (Except.ok (), [], chunks)

/-- Modelled from the spec: the two-pass rewrite behind the plan — write
the source through the staging store in intermediate chunks, read it back,
write the target store in target chunks — after which
`dsa.from_zarr(target)` reads the target store contiguously. -/
def rechunkRoundTrip (interSizes targetSizes : List ℕ) (data : List ℚ) :
    List ℚ :=
  joinChunks (splitSizes targetSizes (joinChunks (splitSizes interSizes data)))

/-! ### Step 1: `clear_targets`

```python
def clear_targets():
    for path in tmp_path,target_path:
        try:
            gcs.rm(path + '/.zarray')
        except FileNotFoundError:
            pass
```
A GCS bucket state is the list of object paths it holds. -/

/-- `tmp_path = f'{scratch_path}/CESM_POP_hires_control/{varname}_tmp.zarr'`
with `varname = 'SST'`. -/
def tmp_path (scratch_path : String) : String :=
  scratch_path ++ "/CESM_POP_hires_control/SST_tmp.zarr"

/-- `target_path = f'paigem-pangeo/CESM_POP_hires_control/{varname}_target.zarr'`
with `varname = 'SST'`. -/
def target_path : String :=
  "paigem-pangeo/CESM_POP_hires_control/SST_target.zarr"

/-- `gcs.rm(path)`: remove the object at `path`, raising
`FileNotFoundError` (the `error` branch) when no such object exists. -/
def gcsRm (store : List String) (path : String) :
    Except Unit (List String) :=
  if path ∈ store then Except.ok (store.filter (fun q => decide (q ≠ path)))
  else Except.error ()

/-- One loop iteration of `clear_targets`: `try: gcs.rm(path + '/.zarray')
except FileNotFoundError: pass`. -/
def clearOne (store : List String) (path : String) : List String :=
  match gcsRm store (path ++ "/.zarray") with
  | Except.ok s => s
  | Except.error _ => store

/-- `clear_targets()`: clear the `.zarray` metadata at the temporary path,
then at the target path. -/
def clear_targets (scratch_path : String) (store : List String) :
    List String :=
  clearOne (clearOne store (tmp_path scratch_path)) target_path

/-! ## Concrete inputs used by witnesses -/

/-- A source field with every sample missing. -/
def sstAllMissing : ℕ → ℕ → ℕ → Option ℚ := fun _ _ _ => none

/-- A source field that is present everywhere at every time. -/
def sstConstOne : ℕ → ℕ → ℕ → Option ℚ := fun _ _ _ => some 1

/-- A source field present only in the first snapshot, missing at every
later time step. -/
def sstFirstOnly : ℕ → ℕ → ℕ → Option ℚ :=
  fun t _ _ => if t = 0 then some 1 else none

/-! ## Theorems for the claims -/

/-- C1 counterexample: the claim says the aggregator selects bins in a
half-open interval, but the code's `.sel(freq_time=slice(lo, hi))` is
label-based and inclusive of both endpoints. On the notebook's own
"~ 1 year" band `slice(1/370, 1/360)`, a single bin at frequency exactly
1/360 is selected (mean 5); under half-open selection it would be excluded
(empty mean). -/
theorem c1_half_open_refuted :
    ("~ 1 year", Band.mk (1/370) (some (1/360))) ∈ bands ∧
    bandMean ⟨1/370, some (1/360)⟩ [(1/360, 5)] = some 5 ∧
    bandMeanHalfOpen ⟨1/370, some (1/360)⟩ [(1/360, 5)] = none := by
  refine ⟨by simp [bands], ?_, ?_⟩
  · norm_num [bandMean, selBand, inBand]
  · norm_num [bandMeanHalfOpen, inBandHalfOpen]

/-- C1 (amended): for every band and every spectral array, the aggregator
selects exactly the bins whose frequency lies in the band's CLOSED
interval (inclusive of both endpoints, unbounded above when no stop is
given) and returns the unweighted mean of the spectrum over that subset;
the reduction is a pure function of its arguments. -/
theorem c1_closed_selection_mean (b : Band) (s : List (ℚ × ℚ)) :
    (∀ p : ℚ × ℚ, p ∈ selBand b s ↔ p ∈ s ∧ memClosedBand b p.1) ∧
    (bandMean b s =
      if selBand b s = [] then none
      else some (((selBand b s).map Prod.snd).sum / (selBand b s).length)) := by
  constructor
  · intro p
    cases hb : b.hi with
    | none =>
      simp [selBand, List.mem_filter, inBand, memClosedBand, hb]
    | some h =>
      simp [selBand, List.mem_filter, inBand, memClosedBand, hb, and_assoc]
  · simp only [bandMean, List.isEmpty_iff]

/-- C1 witness: on the "~ 1 year" band and the one-bin spectrum at
frequency 1/360, the selection contains that bin (it satisfies closed
membership) and the mean is its value. -/
theorem c1_closed_selection_mean_witness :
    (((1:ℚ)/360, (5:ℚ)) ∈ selBand ⟨1/370, some (1/360)⟩ [(1/360, 5)]) ∧
    bandMean ⟨1/370, some (1/360)⟩ [(1/360, 5)] = some 5 := by
  have hmain := c1_closed_selection_mean ⟨1/370, some (1/360)⟩ [(1/360, 5)]
  constructor
  · exact (hmain.1 (1/360, 5)).mpr
      ⟨by simp, by norm_num [memClosedBand], by norm_num [memClosedBand]⟩
  · rw [hmain.2]
    norm_num [selBand, inBand]

/-- C6: evaluating the band aggregation twice over the same spectral array
yields identical results, and each evaluation leaves the spectral array
unchanged (the reduction carries no hidden mutable state). -/
theorem c6_band_aggregation_idempotent (b : Band) (s : List (ℚ × ℚ)) :
    (bandMeanRun b s).1 = (bandMeanRun b (bandMeanRun b s).2).1 ∧
    (bandMeanRun b (bandMeanRun b s).2).2 = s :=
  ⟨rfl, rfl⟩

/-- C10: every frequency strictly between 1/400 (the stop of "> 1 year")
and 1/370 (the start of "~ 1 year") lies in none of the five bands of the
notebook's band table. -/
theorem c10_band_table_gap (f : ℚ) (h1 : 1/400 < f) (h2 : f < 1/370) :
    ∀ p ∈ bands, inBand p.2 f = false := by
  have hb1 : ¬ f ≤ 1/400 := by linarith
  have h370 : (1:ℚ)/370 < 1/360 := by norm_num
  have h360 : (1:ℚ)/360 < 1/100 := by norm_num
  have h100 : (1:ℚ)/100 < 1/10 := by norm_num
  have hb2 : ¬ (1:ℚ)/370 ≤ f := by linarith
  have hb3 : ¬ (1:ℚ)/360 ≤ f := by linarith
  have hb4 : ¬ (1:ℚ)/100 ≤ f := by linarith
  have hb5 : ¬ (1:ℚ)/10 ≤ f := by linarith
  intro p hp
  fin_cases hp <;> simp [inBand] <;> (try intro hf) <;> linarith

/-- C10 witness: the concrete frequency 1/385 lies strictly between 1/400
and 1/370 and is in none of the five bands. -/
theorem c10_band_table_gap_witness :
    (1:ℚ)/400 < 1/385 ∧ (1:ℚ)/385 < 1/370 ∧
    ∀ p ∈ bands, inBand p.2 (1/385) = false :=
  ⟨by norm_num, by norm_num,
   c10_band_table_gap (1/385) (by norm_num) (by norm_num)⟩

/-- C2: the power value the workflow reports at each frequency bin and
coarse spatial cell is the 5×5 block mean of the REAL COMPONENT of the
complex transform output (taken before coarsening) — and the real
component genuinely differs from the squared magnitude that the notebook's
displayed definition of the power spectrum calls for. -/
theorem c2_power_is_real_part (F : ℕ → ℕ → ℕ → Cx) (k i j : ℕ) :
    T_power_spectrum F k i j =
      (∑ a : Fin 5, ∑ b : Fin 5, (F k (5 * i + a) (5 * j + b)).re) / 25 ∧
    ∃ z : Cx, z.re ≠ cxNormSq z :=
  ⟨rfl, ⟨⟨0, 1⟩, by norm_num [cxNormSq]⟩⟩

/-- C2 witness: on the constant transform output 3 + 4i, the reported
power at the first coarse cell is the real component 3, not the squared
magnitude 25. -/
theorem c2_power_is_real_part_witness :
    T_power_spectrum (fun _ _ _ => Cx.mk 3 4) 0 0 0 = 3 ∧
    cxNormSq (Cx.mk 3 4) = 25 := by
  have hmain := (c2_power_is_real_part (fun _ _ _ => Cx.mk 3 4) 0 0 0).1
  constructor
  · rw [hmain]; norm_num
  · norm_num [cxNormSq]

/-- C3: `take_power_spectrum` establishes the transform's precondition for
every input: after `chunk({'time': None})` and `fillna(0)` the time axis
is a single block and no sample is missing, so the transform call always
takes its success branch. -/
theorem c3_precondition_established (var : XArr) :
    singleChunked (fillna 0 (chunkTimeNone var)) = true ∧
    noMissing (fillna 0 (chunkTimeNone var)) = true ∧
    ∃ out, take_power_spectrum var = Except.ok out := by
  have h1 : singleChunked (fillna 0 (chunkTimeNone var)) = true := rfl
  have h2 : noMissing (fillna 0 (chunkTimeNone var)) = true := by
    simp [noMissing, fillna, List.all_eq_true]
  refine ⟨h1, h2, ?_⟩
  refine ⟨(fillna 0 (chunkTimeNone var)).data.map (fun o => o.getD 0), ?_⟩
  simp [take_power_spectrum, power_spectrum, h1, h2]

/-- C3 witness: on an input whose time axis is chunked `[2, 3]` and whose
first sample is missing, `take_power_spectrum` still succeeds. -/
theorem c3_precondition_established_witness :
    ∃ out, take_power_spectrum ⟨[2, 3], [none, some 1]⟩ = Except.ok out :=
  (c3_precondition_established ⟨[2, 3], [none, some 1]⟩).2.2

/-- C4: a coarse spatial cell survives the final `where(mask)` if and only
if its non-missing fraction strictly exceeds the threshold 1/5, and a cell
with fraction below the threshold is set to the no-data marker whatever
spectral field is being masked. -/
theorem c4_mask_threshold (sst : ℕ → ℕ → ℕ → Option ℚ) (T : ℕ → ℕ → ℚ)
    (i j : ℕ) :
    (whereMask (mask sst) T i j ≠ none ↔ coarseFrac sst i j > 1/5) ∧
    (coarseFrac sst i j < 1/5 → whereMask (mask sst) T i j = none) := by
  constructor
  · by_cases h : coarseFrac sst i j > 1/5 <;> simp [whereMask, mask, h]
  · intro hlt
    have h : ¬ coarseFrac sst i j > 1/5 := by linarith
    simp [whereMask, mask]
    linarith

/-- C4 witness: with every source sample missing, the non-missing fraction
of the first coarse cell is 0 < 1/5 and the masked output there is the
no-data marker even though the spectral value is 42. -/
theorem c4_mask_threshold_witness :
    coarseFrac sstAllMissing 0 0 < 1/5 ∧
    whereMask (mask sstAllMissing) (fun _ _ => 42) 0 0 = none := by
  have hfrac : coarseFrac sstAllMissing 0 0 < 1/5 := by
    norm_num [coarseFrac, notnullInd, sstAllMissing]
  exact ⟨hfrac, (c4_mask_threshold sstAllMissing (fun _ _ => 42) 0 0).2 hfrac⟩

/-- C9: the validity mask is a function of the first time snapshot alone:
two source fields that agree at time index 0 produce the same mask at
every coarse cell, whatever their missing-value patterns at later times. -/
theorem c9_mask_first_snapshot_only (sst sst' : ℕ → ℕ → ℕ → Option ℚ)
    (h : ∀ i j, sst 0 i j = sst' 0 i j) (i j : ℕ) :
    mask sst i j = mask sst' i j := by
  have hfrac : coarseFrac sst i j = coarseFrac sst' i j := by
    unfold coarseFrac
    congr 1
    refine Finset.sum_congr rfl (fun a _ => Finset.sum_congr rfl (fun b _ => ?_))
    simp [notnullInd, h]
  simp [mask, hfrac]

/-- C9 witness: a field present only in the first snapshot and a field
present at all times differ at time 1 yet agree at time 0, so they get the
same mask at the first coarse cell. -/
theorem c9_mask_first_snapshot_only_witness :
    sstFirstOnly 1 0 0 ≠ sstConstOne 1 0 0 ∧
    mask sstFirstOnly 0 0 = mask sstConstOne 0 0 :=
  ⟨by simp [sstFirstOnly, sstConstOne],
   c9_mask_first_snapshot_only sstFirstOnly sstConstOne (fun _ _ => rfl) 0 0⟩

/-! ## Helper lemmas -/

/-- Reading a chunked layout back contiguously recovers the flattened
array, whenever the chunk sizes cover its length. -/
theorem joinChunks_splitSizes (sizes : List ℕ) (xs : List ℚ)
    (h : xs.length ≤ sizes.sum) :
    joinChunks (splitSizes sizes xs) = xs := by
  induction sizes generalizing xs with
  | nil =>
    simp only [List.sum_nil, Nat.le_zero] at h
    simp [splitSizes, joinChunks, List.length_eq_zero.mp h]
  | cons n ns ih =>
    have hdrop : (xs.drop n).length ≤ ns.sum := by
      simp only [List.length_drop, List.sum_cons] at h ⊢
      omega
    simp only [splitSizes, joinChunks, List.flatten_cons]
    rw [show (splitSizes ns (xs.drop n)).flatten
          = joinChunks (splitSizes ns (xs.drop n)) from rfl, ih _ hdrop]
    exact List.take_append_drop n xs

/-- The `.zarray` object of a path is gone after `clearOne` runs on it. -/
theorem clearOne_not_mem (store : List String) (path : String) :
    (path ++ "/.zarray") ∉ clearOne store path := by
  by_cases hmem : (path ++ "/.zarray") ∈ store
  · simp [clearOne, gcsRm, hmem, List.mem_filter]
  · simp [clearOne, gcsRm, hmem]

/-- `clearOne` only removes objects; it never adds one. -/
theorem clearOne_subset (store : List String) (path : String) :
    clearOne store path ⊆ store := by
  by_cases hmem : (path ++ "/.zarray") ∈ store
  · simp only [clearOne, gcsRm, hmem, if_pos]
    exact List.filter_subset' _
  · simp [clearOne, gcsRm, hmem]

/-- `clearOne` on a path whose `.zarray` is absent leaves the store
untouched (the `FileNotFoundError` branch is passed over). -/
theorem clearOne_of_not_mem (store : List String) (path : String)
    (h : (path ++ "/.zarray") ∉ store) :
    clearOne store path = store := by
  simp [clearOne, gcsRm, h]

/-! ## Theorems for the rechunk and clearing claims -/

/-- C5: for every memory budget smaller than the byte size of one target
chunk, the rechunk operation fails with a configuration error and neither
the staging store nor the target store is touched (no task is ever
dispatched, since no plan exists). Spec-modelled: the `rechunker` library
itself is not part of this repository. -/
theorem c5_small_budget_config_error (itemsize : ℕ) (data : List ℚ)
    (targetChunks : List ℕ) (maxMem : ℕ) (tmpStore targetStore : List (List ℚ))
    (h : maxMem < chunkBytes itemsize targetChunks) :
    ∃ e, executeRechunk itemsize data targetChunks maxMem tmpStore targetStore =
      (Except.error e, tmpStore, targetStore) := by
  refine ⟨"rechunker configuration error: max_mem smaller than one target chunk", ?_⟩
  simp [executeRechunk, rechunkPlan, h]

/-- C5 witness: a 10-byte budget against a 24-byte target chunk (itemsize
4, chunk shape 2×3) errors out and leaves both stores as they were. -/
theorem c5_small_budget_config_error_witness :
    (10 : ℕ) < chunkBytes 4 [2, 3] ∧
    ∃ e, executeRechunk 4 [1, 2] [2, 3] 10 [] [[7]] =
      (Except.error e, [], [[7]]) :=
  ⟨by decide, c5_small_budget_config_error 4 [1, 2] [2, 3] 10 [] [[7]] (by decide)⟩

/-- C7: when the rechunk operation succeeds (budget at least one target
chunk, non-degenerate chunk shape), reading the target store back
contiguously yields element-for-element the source data: the rewrite only
changes the chunk layout. Spec-modelled: the `rechunker` library itself is
not part of this repository. -/
theorem c7_rechunk_roundtrip_lossless (itemsize : ℕ) (data : List ℚ)
    (targetChunks : List ℕ) (maxMem : ℕ) (tmpStore targetStore : List (List ℚ))
    (hnz : 0 < targetChunks.prod)
    (hmem : chunkBytes itemsize targetChunks ≤ maxMem) :
    joinChunks
      (executeRechunk itemsize data targetChunks maxMem tmpStore targetStore).2.2
      = data := by
  have hok : ¬ maxMem < chunkBytes itemsize targetChunks := not_lt.mpr hmem
  simp only [executeRechunk, rechunkPlan, hok, if_false, if_neg hok]
  apply joinChunks_splitSizes
  rw [List.sum_replicate, smul_eq_mul]
  have hmod := Nat.mod_lt data.length hnz
  calc data.length
      = targetChunks.prod * (data.length / targetChunks.prod)
          + data.length % targetChunks.prod :=
        (Nat.div_add_mod data.length targetChunks.prod).symm
    _ ≤ targetChunks.prod * (data.length / targetChunks.prod)
          + targetChunks.prod := Nat.add_le_add_left (Nat.le_of_lt hmod) _
    _ = (data.length / targetChunks.prod + 1) * targetChunks.prod := by ring

/-- C7 witness: rechunking the 3-element array [5, 6, 7] to chunks of 2
under an 8-byte budget and reading the target back returns [5, 6, 7]. -/
theorem c7_rechunk_roundtrip_lossless_witness :
    joinChunks (executeRechunk 4 [5, 6, 7] [2] 8 [] []).2.2 = [5, 6, 7] :=
  c7_rechunk_roundtrip_lossless 4 [5, 6, 7] [2] 8 [] [] (by decide) (by decide)

/-- C8: `clear_targets` leaves no `.zarray` metadata at either the
temporary path or the target path, and when neither path holds such
metadata it succeeds treating the store as already clear (the
`FileNotFoundError` is swallowed and the store is unchanged). -/
theorem c8_clear_targets_removes_metadata (scratch_path : String)
    (store : List String) :
    (tmp_path scratch_path ++ "/.zarray") ∉ clear_targets scratch_path store ∧
    (target_path ++ "/.zarray") ∉ clear_targets scratch_path store ∧
    ((tmp_path scratch_path ++ "/.zarray") ∉ store →
      (target_path ++ "/.zarray") ∉ store →
      clear_targets scratch_path store = store) := by
  refine ⟨?_, ?_, ?_⟩
  · intro hmem
    exact clearOne_not_mem store (tmp_path scratch_path)
      (clearOne_subset (clearOne store (tmp_path scratch_path)) target_path hmem)
  · exact clearOne_not_mem (clearOne store (tmp_path scratch_path)) target_path
  · intro h1 h2
    unfold clear_targets
    rw [clearOne_of_not_mem store (tmp_path scratch_path) h1,
        clearOne_of_not_mem store target_path h2]

/-- C8 witness: on a store holding one unrelated object, `clear_targets`
finds no `.zarray` at either path and returns the store unchanged. -/
theorem c8_clear_targets_removes_metadata_witness :
    clear_targets "scratch" ["unrelated-object"] = ["unrelated-object"] :=
  (c8_clear_targets_removes_metadata "scratch" ["unrelated-object"]).2.2
    (by simp [tmp_path]) (by simp [target_path])

end FreqDomain
